import Mathlib

/-!
Verification development for the exchange-rate service (`src/app.py`):
the rate-retrieval-with-fallback pipeline (`ExchangeRateService`) and the
statistics calculator (`FinanceCalculator`).

Modelling conventions (shallow embedding):
* Python floats are modelled as exact rationals `ℚ`; the special value
  `float("inf")` produced by `calculate_percentage_change` is modelled by a
  dedicated constructor `PctVal.inf`, so that "a finite number" and "the
  infinite float" stay distinguishable.
* Python `round(x, n)` (round-half-to-even on the decimal value) is modelled
  by `pyRound`.
* Calendar dates are modelled as natural numbers (day ordinals); for valid
  ISO `YYYY-MM-DD` strings the lexicographic string order used by Python
  agrees with the chronological order of the parsed dates and with this
  numeric order, and `datetime ± timedelta(days=1)` becomes `± 1`.
* Python dicts are modelled as association lists (key/value pairs in
  insertion order); `dict` key uniqueness becomes a `Nodup` hypothesis where
  it matters.
* Each remote HTTP call is modelled by an oracle function whose result is
  `Option` of a structured response: `none` means the call raised an
  exception (network failure, timeout, unparsable JSON body), `some r` a
  response with status code, `success` flag and optional `quotes` payload.
* The local fallback file is modelled as `Except String Fallback`:
  `.error msg` means opening/parsing the file raised an exception whose
  string form is `msg`.
-/

/-- A calendar day, as an ordinal number.  For the valid ISO `YYYY-MM-DD`
strings handled by the program, the lexicographic string order used by
`sorted(...)`, string equality, and the order of the parsed `datetime`
values all coincide with this numeric order, and adding
`timedelta(days=1)` is `+ 1`. -/
abbrev Date := ℕ

/-- A currency→rate mapping for one day (Python: the inner dict of `rates`). -/
abbrev Entry := List (String × ℚ)

/-- Result of `FinanceCalculator.calculate_percentage_change`: a Python float,
either a finite value or `float("inf")`. -/
inductive PctVal where
  | num (q : ℚ)
  | inf
deriving DecidableEq

/-- A percentage figure as it appears in the JSON output: either a rounded
number or the literal string marker `"N/A"`. -/
inductive PctOut where
  | val (q : ℚ)
  | na
deriving DecidableEq

/-- Floor of a rational as an integer. -/
def floorQ (q : ℚ) : ℤ := ⌊q⌋

/-- Round-half-to-even to the nearest integer, as the Python builtin `round`. -/
def roundHalfEven (q : ℚ) : ℤ :=
  let n := floorQ q
  let frac := q - n
  if frac < 1/2 then n
  else if 1/2 < frac then n + 1
  else if n % 2 = 0 then n else n + 1

/-- Python `round(q, d)`: round-half-to-even at `d` decimal places. -/
def pyRound (q : ℚ) (d : ℕ) : ℚ := (roundHalfEven (q * 10 ^ d) : ℚ) / 10 ^ d

/-- `FinanceCalculator.calculate_percentage_change` (src/app.py lines 180-185):
`0.0` when both values are zero, `float("inf")` when only the old value is
zero, else `((new - old) / old) * 100`. -/
def calculate_percentage_change (old_value new_value : ℚ) : PctVal :=
  if old_value = 0 then
    (if new_value = 0 then PctVal.num 0 else PctVal.inf)
  else
    PctVal.num ((new_value - old_value) / old_value * 100)

/-- Output formatting of a percentage figure in `process_rates_data`
(src/app.py lines 218 and 231): `round(p, 2) if p != float("inf") else "N/A"`. -/
def formatPct (p : PctVal) : PctOut :=
  match p with
  | PctVal.num q => PctOut.val (pyRound q 2)
  | PctVal.inf => PctOut.na

/-- Input of `FinanceCalculator.process_rates_data`: the dict produced by
`ExchangeRateService` with its `success` flag and its `rates` mapping
(date string → currency → rate). -/
structure RatesData where
  success : Bool
  rates : List (Date × Entry)
deriving DecidableEq

/-- One element of the per-day `breakdown` list (src/app.py lines 215-219). -/
structure DailyStat where
  date : Date
  rate : ℚ
  pct_change : PctOut
deriving DecidableEq

/-- The `totals` dict (src/app.py lines 228-233): exactly the four fields. -/
structure Totals where
  start_rate : ℚ
  end_rate : ℚ
  total_pct_change : PctOut
  mean_rate : ℚ
deriving DecidableEq

/-- Output of `process_rates_data`: either `{"error": msg}` or a dict with
`totals` and, when the breakdown mode is `"day"`, a `breakdown` list. -/
inductive StatsOutput where
  | error (msg : String)
  | ok (totals : Totals) (breakdown : Option (List DailyStat))
deriving DecidableEq

/-- `rates[date].get(to_currency, 0)` (src/app.py line 206). -/
def getRate (entry : Entry) (to_currency : String) : ℚ :=
  (entry.lookup to_currency).getD 0

/-- Key order used by `sorted(rates.keys())` (for ISO date strings the
lexicographic order coincides with the `Date` order), lifted to the
key/value pairs. -/
def keyLe (a b : Date × Entry) : Prop := a.1 ≤ b.1

/-- Strict version of `keyLe`, used to show sorting is unique on nodup keys. -/
def keyLt (a b : Date × Entry) : Prop := a.1 < b.1

instance : DecidableRel keyLe := fun a b => inferInstanceAs (Decidable (a.1 ≤ b.1))

instance : IsTotal (Date × Entry) keyLe := ⟨fun a b => le_total a.1 b.1⟩

instance : IsTrans (Date × Entry) keyLe := ⟨fun _ _ _ h h' => le_trans h h'⟩

instance : IsAntisymm (Date × Entry) keyLt :=
  ⟨fun _ _ h h' => absurd (lt_trans h h') (lt_irrefl _)⟩

/-- The loop of src/app.py lines 204-219, building the per-day breakdown in
sorted date order. `prev` carries `rate_values[i-1]` (the unrounded rate
extracted for the previous date), `none` at the first entry. -/
def buildDaily (to_currency : String) : List (Date × Entry) → Option ℚ → List DailyStat
  | [], _ => []
  | (date, entry) :: rest, prev =>
    let rate := getRate entry to_currency
    let pct : PctVal :=
      match prev with
      | none => PctVal.num 0
      | some p => calculate_percentage_change p rate
    ⟨date, pyRound rate 5, formatPct pct⟩ :: buildDaily to_currency rest (some rate)

/-- The computation of src/app.py lines 200-239 on the already sorted series:
extract the per-currency rates, build the breakdown, and compute the totals.
The Python conditionals `rate_values[0] if rate_values else 0` and
`sum(...) / len(...) if rate_values else 0` appear as `headD 0`, `getLastD 0`
and the emptiness guard on the mean. -/
def processSorted (sortedRates : List (Date × Entry)) (to_currency : String)
    (breakdown : String) : StatsOutput :=
  let rate_values := sortedRates.map (fun p => getRate p.2 to_currency)
  let daily_data := buildDaily to_currency sortedRates none
  let start_rate := rate_values.headD 0
  let end_rate := rate_values.getLastD 0
  let total_pct_change := calculate_percentage_change start_rate end_rate
  let mean_rate : ℚ :=
    if rate_values = [] then 0 else rate_values.sum / (rate_values.length : ℚ)
  StatsOutput.ok
    ⟨pyRound start_rate 5, pyRound end_rate 5, formatPct total_pct_change,
      pyRound mean_rate 5⟩
    (if breakdown = "day" then some daily_data else none)

/-- `FinanceCalculator.process_rates_data` (src/app.py lines 188-239):
structured errors for a failed or empty input, otherwise the statistics of
the series sorted by date (`sorted(rates.keys())`). -/
def process_rates_data (rates_data : RatesData) (to_currency : String)
    (breakdown : String) : StatsOutput :=
  if rates_data.success = false then StatsOutput.error "Failed to retrieve rates data"
  else if rates_data.rates = [] then StatsOutput.error "No rates data available"
  else processSorted (List.insertionSort keyLe rates_data.rates) to_currency breakdown

/-- Response of the remote `historical` endpoint as seen after
`response.json()`: status code, the `success` flag (`data.get("success",
False)`) and the optional `quotes` map keyed by concatenated pair code. -/
structure HResp where
  status : ℕ
  success : Bool
  quotes : Option (List (String × ℚ))

/-- Response of the remote `timeframe` endpoint: like `HResp` but with a
per-date map of quote maps. -/
structure TResp where
  status : ℕ
  success : Bool
  quotes : Option (List (Date × List (String × ℚ)))

/-- The remote API, as an oracle: for the arguments of each call, either `none`
(the call raised: network failure, timeout, unparsable body) or a response. -/
structure RemoteOracle where
  timeframe : Date → Date → String → String → Option TResp
  historical : Date → String → String → Option HResp

/-- The local fallback file: `.error msg` when opening or parsing it raises
an exception rendered as `msg`, `.ok d` when it parses to dataset `d`. -/
structure Fallback where
  base : String
  rates : List (Date × Entry)

/-- Result dict of the service: `{"success": True, "historical": ...,
"base": ..., "rates": ...}` or `{"success": False, "error": ...}`. -/
inductive RateResult where
  | ok (base : String) (historical : Bool) (rates : List (Date × Entry))
  | fail (error : String)
deriving DecidableEq

/-- `ExchangeRateService._load_fallback_data` (src/app.py lines 152-176):
filter the rate table of the dataset to `[start_date, end_date]` inclusive,
keeping its base currency; on any exception return a failure result with
the message of that exception. -/
def load_fallback_data (fb : Except String Fallback) (start_date end_date : Date) :
    RateResult :=
  match fb with
  | Except.error msg => RateResult.fail msg
  | Except.ok d =>
      RateResult.ok d.base true
        (d.rates.filter (fun p => decide (start_date ≤ p.1 ∧ p.1 ≤ end_date)))

/-- `ExchangeRateService._get_historical_rate` (src/app.py lines 73-104):
one `historical` call; on a 200 response with `success` and the requested
pair present in `quotes`, a one-entry series; on anything else (exception,
other status, missing pair) the local fallback for that single date. -/
def get_historical_rate (o : RemoteOracle) (fb : Except String Fallback)
    (date : Date) (from_currency to_currency : String) : RateResult :=
  match o.historical date from_currency to_currency with
  | none => load_fallback_data fb date date
  | some r =>
    if r.status = 200 then
      match r.success, r.quotes with
      | true, some q =>
        match q.lookup (from_currency ++ to_currency) with
        | some v => RateResult.ok from_currency true [(date, [(to_currency, v)])]
        | none => load_fallback_data fb date date
      | _, _ => load_fallback_data fb date date
    else load_fallback_data fb date date

/-- The list of days iterated by the `while current <= end` loop of
`_get_rates_day_by_day`: `[start, ..., end]`, empty when `start > end`. -/
def dateRange (start_date end_date : Date) : List Date :=
  List.range' start_date (end_date + 1 - start_date)

/-- The accumulation loop of `_get_rates_day_by_day` (src/app.py lines
112-136): one `historical` call per day in order; `none` when some call
raises (aborting the whole loop), otherwise the accumulated entries, a day
contributing only when its response is 200/`success` with the pair present. -/
def collectDays (o : RemoteOracle) (from_currency to_currency : String) :
    List Date → Option (List (Date × Entry))
  | [] => some []
  | date :: ds =>
    match o.historical date from_currency to_currency with
    | none => none
    | some r =>
      match collectDays o from_currency to_currency ds with
      | none => none
      | some rest =>
        some (if r.status = 200 then
                match r.success, r.quotes with
                | true, some q =>
                  match q.lookup (from_currency ++ to_currency) with
                  | some v => (date, [(to_currency, v)]) :: rest
                  | none => rest
                | _, _ => rest
              else rest)

/-- `ExchangeRateService._get_rates_day_by_day` (src/app.py lines 106-150):
run the per-day loop; on an exception or an empty accumulated series, the
local fallback for the range. -/
def get_rates_day_by_day (o : RemoteOracle) (fb : Except String Fallback)
    (start_date end_date : Date) (from_currency to_currency : String) : RateResult :=
  match collectDays o from_currency to_currency (dateRange start_date end_date) with
  | none => load_fallback_data fb start_date end_date
  | some rates =>
    if rates = [] then load_fallback_data fb start_date end_date
    else RateResult.ok from_currency true rates

/-- `ExchangeRateService._get_timeframe_rates` (src/app.py lines 34-71): one
`timeframe` call; on a 200 response with `success` and a `quotes` key,
reshape the per-date quotes (keeping only dates where the requested pair is
present) and return them as a success — even when that reshaped series is
empty; on anything else fall through to the day-by-day tier. -/
def get_timeframe_rates (o : RemoteOracle) (fb : Except String Fallback)
    (start_date end_date : Date) (from_currency to_currency : String) : RateResult :=
  match o.timeframe start_date end_date from_currency to_currency with
  | none => get_rates_day_by_day o fb start_date end_date from_currency to_currency
  | some r =>
    if r.status = 200 then
      match r.success, r.quotes with
      | true, some q =>
        RateResult.ok from_currency true
          (q.filterMap (fun p =>
            (p.2.lookup (from_currency ++ to_currency)).map
              (fun v => (p.1, [(to_currency, v)]))))
      | _, _ => get_rates_day_by_day o fb start_date end_date from_currency to_currency
    else get_rates_day_by_day o fb start_date end_date from_currency to_currency

/-- `ExchangeRateService.get_rates` (src/app.py lines 18-32): the timeframe
tier for a multi-date range, the single-date historical tier otherwise. -/
def get_rates (o : RemoteOracle) (fb : Except String Fallback)
    (start_date end_date : Date) (from_currency to_currency : String) : RateResult :=
  if start_date ≠ end_date then
    get_timeframe_rates o fb start_date end_date from_currency to_currency
  else
    get_historical_rate o fb start_date from_currency to_currency

/-- A `historical` call that errors (raises) or returns a non-success
response (other status code, or `success` false). -/
def histCallFails (r : Option HResp) : Prop :=
  match r with
  | none => True
  | some resp => resp.status ≠ 200 ∨ resp.success = false

/-- A `timeframe` call that errors (raises) or returns a non-success
response (other status code, or `success` false). -/
def tfCallFails (r : Option TResp) : Prop :=
  match r with
  | none => True
  | some resp => resp.status ≠ 200 ∨ resp.success = false

/-- A remote behaviour in which each call errors or returns a non-success
response. -/
def allRemoteCallsFail (o : RemoteOracle) : Prop :=
  (∀ s e fc tc, tfCallFails (o.timeframe s e fc tc)) ∧
  (∀ d fc tc, histCallFails (o.historical d fc tc))

/-- Oracle whose calls all raise (e.g. the network is down). -/
def downOracle : RemoteOracle := ⟨fun _ _ _ _ => none, fun _ _ _ => none⟩

/-- A small concrete fallback dataset used to instantiate theorems. -/
def sampleFallback : Fallback :=
  ⟨"EUR", [(0, [("EUR", 1/2)]), (2, [("EUR", 3/4)]), (9, [("EUR", 5/8)])]⟩

/-- Oracle whose `timeframe` response is a 200 success whose `quotes` never
contain the requested `USDEUR` pair, while `historical` responses do. -/
def pairMissingOracle : RemoteOracle :=
  ⟨fun _ _ _ _ => some ⟨200, true, some [(0, [("XXX", 2)])]⟩,
   fun _ _ _ => some ⟨200, true, some [("USDEUR", 3)]⟩⟩

/-- Oracle whose `timeframe` response is a 200 success quoting the `USDEUR`
pair on day 5 only — a date outside the ranges we ask about. -/
def strayDateOracle : RemoteOracle :=
  ⟨fun _ _ _ _ => some ⟨200, true, some [(5, [("USDEUR", 1)])]⟩,
   fun _ _ _ => none⟩

/-- Oracle whose `timeframe` response is a 200 success quoting the `USDEUR`
pair on day 1 only. -/
def inRangeOracle : RemoteOracle :=
  ⟨fun _ _ _ _ => some ⟨200, true, some [(1, [("USDEUR", 2)])]⟩,
   fun _ _ _ => none⟩

set_option maxRecDepth 8192

theorem pyRound_zero (d : ℕ) : pyRound 0 d = 0 := by
  norm_num [pyRound, roundHalfEven, floorQ]

theorem formatPct_num_zero : formatPct (PctVal.num 0) = PctOut.val 0 := by
  simp [formatPct, pyRound_zero]

/-- Claim C1, counterexample: at input `(0, 5)` the function returns the
infinite float `float("inf")` itself — not a distinct "undefined" sentinel
value — so the claim as stated is false (`PctVal.inf` models `float("inf")`;
the `"N/A"` marker exists only in the formatted output). -/
theorem claim_C1_counterexample :
    calculate_percentage_change 0 5 = PctVal.inf ∧
    calculate_percentage_change 0 0 = PctVal.num 0 := by
  constructor <;> norm_num [calculate_percentage_change]

/-- Claim C1, amended: `calculate_percentage_change(0, 0)` returns `0.0`,
and for any non-zero `new_value`, `calculate_percentage_change(0, new_value)`
returns the infinite float `float("inf")` — not a raised exception — which
`process_rates_data` renders as the `"N/A"` sentinel only at output
formatting. -/
theorem claim_C1 (new_value : ℚ) (h : new_value ≠ 0) :
    calculate_percentage_change 0 0 = PctVal.num 0 ∧
    calculate_percentage_change 0 new_value = PctVal.inf ∧
    formatPct (calculate_percentage_change 0 new_value) = PctOut.na := by
  refine ⟨by norm_num [calculate_percentage_change], ?_, ?_⟩ <;>
    simp [calculate_percentage_change, h, formatPct]

/-- Claim C1, witness at `new_value = 5`. -/
theorem claim_C1_witness :
    (5 : ℚ) ≠ 0 ∧
    (calculate_percentage_change 0 0 = PctVal.num 0 ∧
     calculate_percentage_change 0 5 = PctVal.inf ∧
     formatPct (calculate_percentage_change 0 5) = PctOut.na) :=
  ⟨by norm_num, claim_C1 5 (by norm_num)⟩

/-- Claim C7: for every non-zero `old_value`,
`calculate_percentage_change(old_value, new_value)` equals
`((new_value - old_value) / old_value) * 100`; in particular
`calculate_percentage_change(100, 150) = 50.0` and
`calculate_percentage_change(100, 50) = -50.0`. -/
theorem claim_C7 (old_value new_value : ℚ) (h : old_value ≠ 0) :
    calculate_percentage_change old_value new_value =
      PctVal.num ((new_value - old_value) / old_value * 100) ∧
    calculate_percentage_change 100 150 = PctVal.num 50 ∧
    calculate_percentage_change 100 50 = PctVal.num (-50) := by
  refine ⟨by simp [calculate_percentage_change, h], ?_, ?_⟩ <;>
    norm_num [calculate_percentage_change]

/-- Claim C7, witness at `(100, 150)`. -/
theorem claim_C7_witness :
    (100 : ℚ) ≠ 0 ∧
    (calculate_percentage_change 100 150 = PctVal.num ((150 - 100) / 100 * 100) ∧
     calculate_percentage_change 100 150 = PctVal.num 50 ∧
     calculate_percentage_change 100 50 = PctVal.num (-50)) :=
  ⟨by norm_num, claim_C7 100 150 (by norm_num)⟩

/-- Claim C8: on the successful two-entry series
`{"2025-07-01": {"EUR": 0.9}, "2025-07-02": {"EUR": 0.91}}` (dates as day
ordinals) with quote currency `EUR` and day breakdown, `process_rates_data`
yields the breakdown `[(2025-07-01, 0.9, 0.0), (2025-07-02, 0.91, 1.11)]`
and totals `start_rate 0.9, end_rate 0.91, total_pct_change 1.11, mean_rate
0.905`; the rounding to 5 (rates) and 2 (percentages) decimal places happens
only at output — the `1.11` figures come from the unrounded quotient
`10/9 = 1.111...` of the unrounded rates. -/
theorem claim_C8 :
    process_rates_data
      ⟨true, [(20250701, [("EUR", 9/10)]), (20250702, [("EUR", 91/100)])]⟩
      "EUR" "day" =
    StatsOutput.ok ⟨9/10, 91/100, PctOut.val (111/100), 181/200⟩
      (some [⟨20250701, 9/10, PctOut.val 0⟩,
             ⟨20250702, 91/100, PctOut.val (111/100)⟩]) := by
  norm_num [process_rates_data, processSorted, List.insertionSort,
    List.orderedInsert, keyLe, buildDaily, getRate, List.lookup,
    calculate_percentage_change, formatPct, pyRound, roundHalfEven, floorQ,
    List.cons_ne_nil]

/-- Claim C6: `process_rates_data` returns a structured error exactly when
the input indicates failure or its rate series is empty; an
empty-but-successful series yields `"No rates data available"`, a failed
retrieval yields the distinct `"Failed to retrieve rates data"`. -/
theorem claim_C6 (rates_data : RatesData) (to_currency breakdown : String) :
    ((∃ msg, process_rates_data rates_data to_currency breakdown =
        StatsOutput.error msg) ↔
      (rates_data.success = false ∨ rates_data.rates = [])) ∧
    (rates_data.success = true → rates_data.rates = [] →
      process_rates_data rates_data to_currency breakdown =
        StatsOutput.error "No rates data available") ∧
    (rates_data.success = false →
      process_rates_data rates_data to_currency breakdown =
        StatsOutput.error "Failed to retrieve rates data") ∧
    "No rates data available" ≠ "Failed to retrieve rates data" := by
  obtain ⟨s, rs⟩ := rates_data
  refine ⟨?_, ?_, ?_, by decide⟩
  · cases s <;> by_cases h : rs = [] <;>
      simp [process_rates_data, processSorted, h]
  · intro hs h
    simp only at hs h
    subst hs; subst h
    simp [process_rates_data]
  · intro hs; simp only at hs; subst hs; simp [process_rates_data]

/-- Claim C6, witness: the two error messages at concrete inputs. -/
theorem claim_C6_witness :
    process_rates_data ⟨true, []⟩ "EUR" "day" =
      StatsOutput.error "No rates data available" ∧
    process_rates_data ⟨false, [(0, [("EUR", 1)])]⟩ "EUR" "day" =
      StatsOutput.error "Failed to retrieve rates data" :=
  ⟨(claim_C6 ⟨true, []⟩ "EUR" "day").2.1 rfl rfl,
   (claim_C6 ⟨false, [(0, [("EUR", 1)])]⟩ "EUR" "day").2.2.1 rfl⟩

/-- Claim C10: on any successful input with a non-empty rate mapping,
`process_rates_data` returns (without raising) a result whose `totals`
carries exactly the four fields of `Totals`; the division for the mean is reached
only with a non-empty extracted rate list, and a quote currency missing from the entry
of a day contributes the degenerate rate `0`. -/
theorem claim_C10 (rates_data : RatesData) (to_currency breakdown : String)
    (hs : rates_data.success = true) (hr : rates_data.rates ≠ []) :
    (∃ t b, process_rates_data rates_data to_currency breakdown =
      StatsOutput.ok t b) ∧
    (∀ entry c, List.lookup c entry = (none : Option ℚ) → getRate entry c = 0) := by
  refine ⟨?_, ?_⟩
  · obtain ⟨s, rs⟩ := rates_data
    simp only at hs hr
    subst hs
    simp only [process_rates_data]
    rw [if_neg (by simp), if_neg hr]
    exact ⟨_, _, rfl⟩
  · intro entry c h; simp [getRate, h]

/-- Claim C10, witness at a one-day series whose entry lacks the quote
currency. -/
theorem claim_C10_witness :
    (∃ t b, process_rates_data ⟨true, [(0, [("GBP", 1)])]⟩ "EUR" "day" =
      StatsOutput.ok t b) ∧
    getRate [("GBP", 1)] "EUR" = 0 := by
  refine ⟨(claim_C10 ⟨true, [(0, [("GBP", 1)])]⟩ "EUR" "day" rfl (by simp)).1, ?_⟩
  exact (claim_C10 ⟨true, [(0, [("GBP", 1)])]⟩ "EUR" "day" rfl (by simp)).2
    [("GBP", 1)] "EUR" (by simp [List.lookup])

theorem buildDaily_map_date (tc : String) :
    ∀ (l : List (Date × Entry)) (prev : Option ℚ),
      (buildDaily tc l prev).map DailyStat.date = l.map Prod.fst
  | [], _ => rfl
  | (d, e) :: rest, prev => by
    simp [buildDaily, buildDaily_map_date tc rest]

theorem buildDaily_head_pct {tc : String} {p : Date × Entry}
    {rest : List (Date × Entry)} :
    (buildDaily tc (p :: rest) none).head? =
      some ⟨p.1, pyRound (getRate p.2 tc) 5, PctOut.val 0⟩ := by
  obtain ⟨d, e⟩ := p
  simp [buildDaily, formatPct_num_zero]

theorem sorted_keyLt {l : List (Date × Entry)} (hs : l.Pairwise keyLe)
    (hnd : (l.map Prod.fst).Nodup) : l.Pairwise keyLt := by
  rw [List.Nodup, List.pairwise_map] at hnd
  exact (hs.and hnd).imp (fun h => lt_of_le_of_ne h.1 h.2)

theorem insertionSort_eq_of_perm {l1 l2 : List (Date × Entry)}
    (hp : l1.Perm l2) (hnd : (l1.map Prod.fst).Nodup) :
    List.insertionSort keyLe l1 = List.insertionSort keyLe l2 := by
  have hnd2 : (l2.map Prod.fst).Nodup := ((hp.map Prod.fst).nodup_iff).mp hnd
  have hnd1' : ((List.insertionSort keyLe l1).map Prod.fst).Nodup :=
    (((List.perm_insertionSort keyLe l1).map Prod.fst).nodup_iff).mpr hnd
  have hnd2' : ((List.insertionSort keyLe l2).map Prod.fst).Nodup :=
    (((List.perm_insertionSort keyLe l2).map Prod.fst).nodup_iff).mpr hnd2
  exact List.eq_of_perm_of_sorted
    (((List.perm_insertionSort keyLe l1).trans hp).trans
      (List.perm_insertionSort keyLe l2).symm)
    (sorted_keyLt (List.sorted_insertionSort keyLe l1) hnd1')
    (sorted_keyLt (List.sorted_insertionSort keyLe l2) hnd2')

theorem processSorted_breakdown {l : List (Date × Entry)} {tc mode : String}
    {t : Totals} {b : List DailyStat}
    (h : processSorted l tc mode = StatsOutput.ok t (some b)) :
    b = buildDaily tc l none := by
  by_cases hm : mode = "day" <;> simp [processSorted, hm] at h
  exact h.2.symm

/-- Claim C9: the output of `process_rates_data` depends only on the
key/value contents of the rate mapping, not on its iteration order (inputs
that are permutations of one another, with the duplicate-free keys a Python
dict guarantees, give equal outputs); the breakdown is ordered ascending by
date (for ISO date strings, lexicographic sort = chronological sort = the
order of the day ordinals used here), and the `pct_change` of its first entry is
`0.0`. -/
theorem claim_C9 (s : Bool) (l1 l2 : List (Date × Entry)) (tc mode : String)
    (hp : l1.Perm l2) (hnd : (l1.map Prod.fst).Nodup) :
    process_rates_data ⟨s, l1⟩ tc mode = process_rates_data ⟨s, l2⟩ tc mode ∧
    (∀ t b, process_rates_data ⟨s, l1⟩ tc mode = StatsOutput.ok t (some b) →
      (b.map DailyStat.date).Pairwise (· ≤ ·) ∧
      ∀ x, b.head? = some x → x.pct_change = PctOut.val 0) := by
  constructor
  · cases s with
    | false => simp [process_rates_data]
    | true =>
      by_cases h1 : l1 = []
      · have h2 : l2 = [] := by subst h1; exact hp.symm.eq_nil
        simp [process_rates_data, h1, h2]
      · have h2 : l2 ≠ [] := fun h => h1 (by subst h; exact hp.eq_nil)
        have hsort := insertionSort_eq_of_perm hp hnd
        simp [process_rates_data, h1, h2, hsort]
  · intro t b hok
    cases s with
    | false => simp [process_rates_data] at hok
    | true =>
      by_cases h1 : l1 = []
      · simp [process_rates_data, h1] at hok
      · simp only [process_rates_data] at hok
        rw [if_neg (by simp), if_neg (by simpa using h1)] at hok
        have hb := processSorted_breakdown hok
        subst hb
        constructor
        · rw [buildDaily_map_date, List.pairwise_map]
          exact List.sorted_insertionSort keyLe l1
        · intro x hx
          have hne : List.insertionSort keyLe l1 ≠ [] := by
            intro h
            apply h1
            have hperm := (List.perm_insertionSort keyLe l1).symm
            rw [h] at hperm
            exact hperm.eq_nil
          obtain ⟨p, rest, hcons⟩ := List.exists_cons_of_ne_nil hne
          rw [hcons, buildDaily_head_pct] at hx
          cases hx
          rfl

/-- Claim C9, witness: two orderings of the same two-day series give the
same output. -/
theorem claim_C9_witness :
    process_rates_data ⟨true, [(1, [("EUR", 2)]), (0, [("EUR", 1)])]⟩ "EUR" "day" =
      process_rates_data ⟨true, [(0, [("EUR", 1)]), (1, [("EUR", 2)])]⟩ "EUR" "day" :=
  (claim_C9 true [(1, [("EUR", 2)]), (0, [("EUR", 1)])]
    [(0, [("EUR", 1)]), (1, [("EUR", 2)])] "EUR" "day"
    (List.Perm.swap _ _ _) (by decide)).1

theorem load_fallback_data_cases (fb : Except String Fallback) (s e : Date) :
    (∃ b h rs, load_fallback_data fb s e = RateResult.ok b h rs) ∨
    (∃ msg, load_fallback_data fb s e = RateResult.fail msg ∧
      fb = Except.error msg) := by
  cases fb with
  | error msg => exact Or.inr ⟨msg, rfl, rfl⟩
  | ok d => exact Or.inl ⟨_, _, _, rfl⟩

theorem get_rates_day_by_day_cases (o : RemoteOracle) (fb : Except String Fallback)
    (s e : Date) (fc tc : String) :
    (∃ b h rs, get_rates_day_by_day o fb s e fc tc = RateResult.ok b h rs) ∨
    (∃ msg, get_rates_day_by_day o fb s e fc tc = RateResult.fail msg ∧
      fb = Except.error msg) := by
  unfold get_rates_day_by_day
  repeat' split
  all_goals first
    | exact Or.inl ⟨_, _, _, rfl⟩
    | exact load_fallback_data_cases fb s e

theorem get_timeframe_rates_cases (o : RemoteOracle) (fb : Except String Fallback)
    (s e : Date) (fc tc : String) :
    (∃ b h rs, get_timeframe_rates o fb s e fc tc = RateResult.ok b h rs) ∨
    (∃ msg, get_timeframe_rates o fb s e fc tc = RateResult.fail msg ∧
      fb = Except.error msg) := by
  unfold get_timeframe_rates
  repeat' split
  all_goals first
    | exact Or.inl ⟨_, _, _, rfl⟩
    | exact get_rates_day_by_day_cases o fb s e fc tc

theorem get_historical_rate_cases (o : RemoteOracle) (fb : Except String Fallback)
    (d : Date) (fc tc : String) :
    (∃ b h rs, get_historical_rate o fb d fc tc = RateResult.ok b h rs) ∨
    (∃ msg, get_historical_rate o fb d fc tc = RateResult.fail msg ∧
      fb = Except.error msg) := by
  unfold get_historical_rate
  repeat' split
  all_goals first
    | exact Or.inl ⟨_, _, _, rfl⟩
    | exact load_fallback_data_cases fb d d

/-- Claim C4: for every input and every behaviour of the remote calls and of
the fallback file, `get_rates` returns (never raises): either a success
result, or a failure result carrying an error description, the latter only
when loading/parsing the fallback dataset itself failed (with that very
error message). -/
theorem claim_C4 (o : RemoteOracle) (fb : Except String Fallback)
    (s e : Date) (fc tc : String) :
    (∃ b h rs, get_rates o fb s e fc tc = RateResult.ok b h rs) ∨
    (∃ msg, get_rates o fb s e fc tc = RateResult.fail msg ∧
      fb = Except.error msg) := by
  unfold get_rates
  split
  · exact get_timeframe_rates_cases o fb s e fc tc
  · exact get_historical_rate_cases o fb s fc tc

theorem collectDays_cons_of_fail {o : RemoteOracle} {fc tc : String}
    {d : Date} {ds : List Date} {r : HResp}
    (ho : o.historical d fc tc = some r)
    (hf : r.status ≠ 200 ∨ r.success = false) :
    collectDays o fc tc (d :: ds) = collectDays o fc tc ds := by
  conv_lhs => simp only [collectDays]
  rw [ho]
  cases h' : collectDays o fc tc ds with
  | none => rfl
  | some rest =>
    rcases hf with hst | hsu
    · simp [hst]
    · cases hq : r.quotes <;> by_cases hst : r.status = 200 <;> simp [hst, hsu, hq]

theorem collectDays_of_allFail {o : RemoteOracle} (fc tc : String)
    (h : ∀ d fc' tc', histCallFails (o.historical d fc' tc')) :
    ∀ ds, collectDays o fc tc ds = none ∨ collectDays o fc tc ds = some []
  | [] => Or.inr rfl
  | d :: ds => by
    have hd := h d fc tc
    cases ho : o.historical d fc tc with
    | none => exact Or.inl (by conv_lhs => simp only [collectDays]; rw [ho])
    | some r =>
      rw [ho] at hd
      simp only [histCallFails] at hd
      rw [collectDays_cons_of_fail ho hd]
      exact collectDays_of_allFail fc tc h ds

theorem get_rates_day_by_day_of_allFail {o : RemoteOracle}
    {fb : Except String Fallback} {s e : Date} {fc tc : String}
    (h : ∀ d fc' tc', histCallFails (o.historical d fc' tc')) :
    get_rates_day_by_day o fb s e fc tc = load_fallback_data fb s e := by
  rcases collectDays_of_allFail fc tc h (dateRange s e) with h' | h' <;>
    simp [get_rates_day_by_day, h']

theorem get_timeframe_rates_of_allFail {o : RemoteOracle}
    {fb : Except String Fallback} {s e : Date} {fc tc : String}
    (h : allRemoteCallsFail o) :
    get_timeframe_rates o fb s e fc tc = load_fallback_data fb s e := by
  have ht := h.1 s e fc tc
  cases ho : o.timeframe s e fc tc with
  | none => simp [get_timeframe_rates, ho, get_rates_day_by_day_of_allFail h.2]
  | some r =>
    rw [ho] at ht
    simp only [tfCallFails] at ht
    rcases ht with hst | hsu
    · simp [get_timeframe_rates, ho, hst, get_rates_day_by_day_of_allFail h.2]
    · cases hq : r.quotes <;> by_cases hst : r.status = 200 <;>
        simp [get_timeframe_rates, ho, hst, hsu, hq,
          get_rates_day_by_day_of_allFail h.2]

theorem get_historical_rate_of_allFail {o : RemoteOracle}
    {fb : Except String Fallback} {d : Date} {fc tc : String}
    (h : allRemoteCallsFail o) :
    get_historical_rate o fb d fc tc = load_fallback_data fb d d := by
  have hh := h.2 d fc tc
  cases ho : o.historical d fc tc with
  | none => simp [get_historical_rate, ho]
  | some r =>
    rw [ho] at hh
    simp only [histCallFails] at hh
    rcases hh with hst | hsu
    · simp [get_historical_rate, ho, hst]
    · cases hq : r.quotes <;> by_cases hst : r.status = 200 <;>
        simp [get_historical_rate, ho, hst, hsu, hq]

/-- Claim C3: if every remote call errors or returns a non-success response,
`get_rates` returns a success result whose series is the rate table of the
fallback dataset restricted to `[start, end]` inclusive, with the base
currency of the dataset itself. -/
theorem claim_C3 (o : RemoteOracle) (data : Fallback) (s e : Date)
    (fc tc : String) (h : allRemoteCallsFail o) :
    get_rates o (Except.ok data) s e fc tc =
      RateResult.ok data.base true
        (data.rates.filter (fun p => decide (s ≤ p.1 ∧ p.1 ≤ e))) := by
  unfold get_rates
  by_cases hse : s ≠ e
  · rw [if_pos hse, get_timeframe_rates_of_allFail h]; rfl
  · rw [if_neg hse, get_historical_rate_of_allFail h]
    push_neg at hse
    subst hse
    rfl

/-- Claim C3, witness: the all-raising oracle over the sample dataset and
the range `[0, 6]`. -/
theorem claim_C3_witness :
    get_rates downOracle (Except.ok sampleFallback) 0 6 "USD" "EUR" =
      RateResult.ok sampleFallback.base true
        (sampleFallback.rates.filter (fun p => decide (0 ≤ p.1 ∧ p.1 ≤ 6))) :=
  claim_C3 downOracle sampleFallback 0 6 "USD" "EUR"
    ⟨fun _ _ _ _ => trivial, fun _ _ _ => trivial⟩

theorem appendUSDEUR : ("USD" ++ "EUR" : String) = "USDEUR" := rfl

theorem mem_dateRange {s e d : ℕ} (h : d ∈ dateRange s e) :
    s ≤ d ∧ d ≤ e := by
  simp only [dateRange, List.mem_range'] at h
  exact ⟨by omega, by omega⟩

theorem collectDays_mem {o : RemoteOracle} {fc tc : String} :
    ∀ {ds : List Date} {rs : List (Date × Entry)},
      collectDays o fc tc ds = some rs → ∀ p ∈ rs, p.1 ∈ ds
  | [], rs => by
    intro h p hp
    simp only [collectDays, Option.some.injEq] at h
    subst h
    simp at hp
  | d :: ds, rs => by
    intro h p hp
    conv_lhs at h => simp only [collectDays]
    rcases ho : o.historical d fc tc with _ | r <;> rw [ho] at h
    · simp at h
    · rcases hrec : collectDays o fc tc ds with _ | rest <;> rw [hrec] at h
      · simp at h
      · simp only [Option.some.injEq] at h
        subst h
        split at hp
        · split at hp
          · split at hp
            · rcases List.mem_cons.mp hp with heq | hp'
              · rw [heq]; exact List.mem_cons_self d ds
              · exact List.mem_cons_of_mem d (collectDays_mem hrec p hp')
            · exact List.mem_cons_of_mem d (collectDays_mem hrec p hp)
          · exact List.mem_cons_of_mem d (collectDays_mem hrec p hp)
        · exact List.mem_cons_of_mem d (collectDays_mem hrec p hp)

theorem load_fallback_ok_mem {fb : Except String Fallback} {s e : Date}
    {b : String} {h : Bool} {rs : List (Date × Entry)}
    (heq : load_fallback_data fb s e = RateResult.ok b h rs) :
    ∀ p ∈ rs, s ≤ p.1 ∧ p.1 ≤ e := by
  cases fb with
  | error m => simp [load_fallback_data] at heq
  | ok data =>
    simp only [load_fallback_data] at heq
    cases heq
    intro p hp
    simp only [List.mem_filter, decide_eq_true_eq] at hp
    exact hp.2

theorem get_rates_day_by_day_mem {o : RemoteOracle} {fb : Except String Fallback}
    {s e : Date} {fc tc : String} {b : String} {h : Bool}
    {rs : List (Date × Entry)}
    (heq : get_rates_day_by_day o fb s e fc tc = RateResult.ok b h rs) :
    ∀ p ∈ rs, s ≤ p.1 ∧ p.1 ≤ e := by
  unfold get_rates_day_by_day at heq
  split at heq
  · exact load_fallback_ok_mem heq
  · rename_i rates hc
    split at heq
    · exact load_fallback_ok_mem heq
    · cases heq
      intro p hp
      exact mem_dateRange (collectDays_mem hc p hp)

/-- Claim C5, counterexample: the timeframe tier copies the date keys of
the response verbatim, so a remote behaviour whose 200-success `timeframe` response
quotes day 5 makes `get_rates` over the range `[0, 1]` return a series whose
date key 5 lies outside `[0, 1]` — the claimed invariant fails for that
behaviour of the remote operations. -/
theorem claim_C5_counterexample :
    get_rates strayDateOracle (Except.ok sampleFallback) 0 1 "USD" "EUR" =
      RateResult.ok "USD" true [(5, [("EUR", 1)])] ∧
    ¬((5 : Date) ≤ 1) := by
  constructor
  · norm_num [get_rates, get_timeframe_rates, strayDateOracle, List.lookup,
      List.filterMap_cons, List.filterMap_nil, appendUSDEUR]
  · decide

/-- Claim C5, amended: for all valid dates with `start ≤ end` and every
behaviour of the remote operations whose `timeframe` response for the
requested call quotes only dates within `[start, end]`, every date key in
the series returned by `get_rates` lies within `[start, end]` inclusive
(the timeframe tier trusts the dates of the response; all other tiers
bound their dates themselves). -/
theorem claim_C5 (o : RemoteOracle) (fb : Except String Fallback) (s e : Date)
    (fc tc : String) (hse : s ≤ e)
    (htf : ∀ r, o.timeframe s e fc tc = some r →
      ∀ q ∈ r.quotes.getD [], s ≤ q.1 ∧ q.1 ≤ e)
    (b : String) (hist : Bool) (rs : List (Date × Entry))
    (hok : get_rates o fb s e fc tc = RateResult.ok b hist rs) :
    ∀ p ∈ rs, s ≤ p.1 ∧ p.1 ≤ e := by
  unfold get_rates at hok
  by_cases hne : s ≠ e
  · rw [if_pos hne] at hok
    unfold get_timeframe_rates at hok
    split at hok
    · exact get_rates_day_by_day_mem hok
    · rename_i r ho
      split at hok
      · rename_i hst
        split at hok
        · rename_i q hsu hq
          cases hok
          intro p hp
          rcases List.mem_filterMap.mp hp with ⟨a, ha, hfa⟩
          rcases Option.map_eq_some'.mp hfa with ⟨v, hv, hav⟩
          have hbound := htf r ho a (by rw [hq]; simpa using ha)
          rw [← hav]
          exact hbound
        · exact get_rates_day_by_day_mem hok
      · exact get_rates_day_by_day_mem hok
  · rw [if_neg hne] at hok
    push_neg at hne
    subst hne
    unfold get_historical_rate at hok
    split at hok
    · exact load_fallback_ok_mem hok
    · split at hok
      · split at hok
        · split at hok
          · cases hok
            intro p hp
            rcases List.mem_singleton.mp hp with rfl
            exact ⟨le_refl s, hse⟩
          · exact load_fallback_ok_mem hok
        · exact load_fallback_ok_mem hok
      · exact load_fallback_ok_mem hok

/-- Claim C5, witness: an in-range timeframe response over `[0, 1]`. -/
theorem claim_C5_witness :
    (0 : Date) ≤ 1 ∧
    (∀ p ∈ [((1 : Date), [("EUR", (2 : ℚ))])], (0 : Date) ≤ p.1 ∧ p.1 ≤ 1) := by
  refine ⟨by decide,
    claim_C5 inRangeOracle (Except.ok sampleFallback) 0 1 "USD" "EUR"
      (by decide) ?_ "USD" true _ ?_⟩
  · intro r hr q hq
    simp only [inRangeOracle, Option.some.injEq] at hr
    subst hr
    simp only [Option.getD_some, List.mem_singleton] at hq
    subst hq
    exact ⟨by decide, by decide⟩
  · norm_num [get_rates, get_timeframe_rates, inRangeOracle, List.lookup,
      List.filterMap_cons, List.filterMap_nil, appendUSDEUR]

/-- Claim C2, counterexample: over `[0, 1]` a timeframe response that is a
200 success with `quotes` lacking the `USDEUR` pair on every date makes
`get_rates` return that empty reshaped series as a success — it does not
fall through to the day-by-day tier, although that tier (same oracle) would
have produced a two-day series. -/
theorem claim_C2_counterexample :
    get_rates pairMissingOracle (Except.ok sampleFallback) 0 1 "USD" "EUR" =
      RateResult.ok "USD" true [] ∧
    get_rates_day_by_day pairMissingOracle (Except.ok sampleFallback) 0 1
      "USD" "EUR" =
      RateResult.ok "USD" true [(0, [("EUR", 3)]), (1, [("EUR", 3)])] := by
  constructor
  · norm_num [get_rates, get_timeframe_rates, pairMissingOracle, List.lookup,
      List.filterMap_cons, List.filterMap_nil, appendUSDEUR]
    decide
  · norm_num [get_rates_day_by_day, pairMissingOracle, collectDays, dateRange,
      List.range', List.lookup, appendUSDEUR, List.cons_ne_nil]

/-- Claim C2, amended: for a multi-date range, when the timeframe call
returns a 2xx response with `success` true and a `quotes` payload in which
the requested currency pair is missing from every date, `get_rates` returns
the empty reshaped series as a success (`success = True`, `rates = {}`)
rather than falling through to the day-by-day tier; the day-by-day tier is
reached only when the timeframe call raises, has a non-200 status, has
`success` false, or lacks the `quotes` key. -/
theorem claim_C2 (o : RemoteOracle) (fb : Except String Fallback) (s e : Date)
    (fc tc : String) (r : TResp) (q : List (Date × List (String × ℚ)))
    (hne : s ≠ e) (ho : o.timeframe s e fc tc = some r) (hst : r.status = 200)
    (hsu : r.success = true) (hq : r.quotes = some q)
    (hmiss : ∀ p ∈ q, p.2.lookup (fc ++ tc) = none) :
    get_rates o fb s e fc tc = RateResult.ok fc true [] := by
  unfold get_rates get_timeframe_rates
  rw [if_pos hne, ho]
  have hnil : (q.filterMap (fun p =>
      (p.2.lookup (fc ++ tc)).map (fun v => (p.1, [(tc, v)])))) = [] := by
    rw [List.filterMap_eq_nil_iff]
    intro a ha
    rw [hmiss a ha]
    rfl
  simp [hst, hsu, hq, hnil]

/-- Claim C2, witness: the pair-missing oracle over `[0, 1]`. -/
theorem claim_C2_witness :
    get_rates pairMissingOracle (Except.ok sampleFallback) 0 1 "USD" "EUR" =
      RateResult.ok "USD" true [] :=
  claim_C2 pairMissingOracle (Except.ok sampleFallback) 0 1 "USD" "EUR"
    ⟨200, true, some [(0, [("XXX", 2)])]⟩ [(0, [("XXX", 2)])]
    (by decide) rfl rfl rfl rfl (by decide)
